import Mathlib

/-
Verification development for the multi-language-live speech-to-speech
dubbing service (apps/sts-service).  The Python sources are shallowly
embedded: pure text transforms become Lean functions on String / List Char,
audio buffers become lists of rationals, machine floats become exact
rationals, external collaborators (ffmpeg, Whisper, M2M100, VITS,
rubberband) become oracle fields of an environment record, and the
single-worker FIFO scheduler becomes a step relation on an explicit state.
-/

namespace STS

/-! ## Text processing (utils/text_processing.py) -/

/-- Python `str.replace(old, new)` on character lists: left-to-right,
non-overlapping replacement of every occurrence.  Fuel-indexed for
structural termination; for a non-empty pattern the initial fuel
`cs.length` is always sufficient. -/
def pyReplaceAux (old new : List Char) : Nat → List Char → List Char
  | 0, cs => cs
  | _ + 1, [] => []
  | n + 1, c :: rest =>
    if old.isPrefixOf (c :: rest) then
      new ++ pyReplaceAux old new n (List.drop old.length (c :: rest))
    else
      c :: pyReplaceAux old new n rest

/-- Python `str.replace` lifted back to `String`. -/
def pyReplace (s old new : String) : String :=
  String.mk (pyReplaceAux old.data new.data s.data.length s.data)

/-- Python `str.lower()` (the inputs at play are ASCII). -/
def py_lower (s : String) : String :=
  String.mk (s.data.map Char.toLower)

/-- Splitter behind Python `str.split()` with no argument: accumulate the
current word (reversed), emit it at each whitespace run, drop empties. -/
def splitWsAux : List Char → List Char → List String
  | [], acc => if acc.isEmpty then [] else [String.mk acc.reverse]
  | c :: rest, acc =>
    if c.isWhitespace then
      if acc.isEmpty then splitWsAux rest []
      else String.mk acc.reverse :: splitWsAux rest []
    else
      splitWsAux rest (c :: acc)

/-- Python `str.split()` with no argument: split on runs of whitespace and
drop empty pieces (`text_processing` callers and the hallucination check
rely on this behaviour of `text.lower().split()`). -/
def py_split_ws (s : String) : List String :=
  splitWsAux s.data []

/-- Embedding of `handle_abbreviations` (utils/text_processing.py:104-140):
sequential `str.replace` over the fixed table, in the source's dict order.
Identity entries (`Eagles`, `Hawks`, `...`, `..`) are kept for fidelity. -/
def handle_abbreviations (text : String) : String :=
  let t := pyReplace text "Eagles" "Eagles"
  let t := pyReplace t "Hawks" "Hawks"
  let t := pyReplace t "NBA" "N B A"
  let t := pyReplace t "NFL" "N F L"
  let t := pyReplace t "MLB" "M L B"
  let t := pyReplace t "NHL" "N H L"
  let t := pyReplace t "vs" "versus"
  let t := pyReplace t "vs." "versus"
  let t := pyReplace t "&" "and"
  let t := pyReplace t "%" "percent"
  let t := pyReplace t "$" "dollars"
  let t := pyReplace t "#" "number"
  let t := pyReplace t "@" "at"
  let t := pyReplace t "+" "plus"
  let t := pyReplace t "=" "equals"
  let t := pyReplace t "/" "slash"
  let t := pyReplace t "\\" "backslash"
  let t := pyReplace t "*" "asterisk"
  let t := pyReplace t "..." "..."
  let t := pyReplace t ".." ".."
  t

/-- Rewrite each maximal run of the character `c` (length `k`) into `f k`,
leaving other characters untouched.  This is how the `re.sub` calls of
`clean_punctuation` act, since each of those patterns matches inside a
single run of one repeated character.  Fuel-indexed for structural
termination; the initial fuel `cs.length` is always sufficient. -/
def mapRunsAux (c : Char) (f : Nat → List Char) : Nat → List Char → List Char
  | 0, cs => cs
  | _ + 1, [] => []
  | n + 1, x :: rest =>
    if x = c then
      let run := rest.takeWhile (fun y => y = c)
      f (run.length + 1) ++ mapRunsAux c f n (rest.dropWhile (fun y => y = c))
    else
      x :: mapRunsAux c f n rest

def mapRuns (c : Char) (f : Nat → List Char) (cs : List Char) : List Char :=
  mapRunsAux c f cs.length cs

/-- Embedding of `re.sub(r'(\d+)-(\d+)', r'\1 to \2', text)` from
`clean_punctuation` (utils/text_processing.py:174): a maximal digit run,
an ASCII hyphen and a following digit run are rewritten `d1 to d2`;
scanning resumes after the match, as in Python's left-to-right
non-overlapping substitution.  Fuel-indexed; `cs.length` fuel suffices. -/
def scoreSubAux : Nat → List Char → List Char
  | 0, cs => cs
  | _ + 1, [] => []
  | n + 1, x :: rest =>
    if x.isDigit then
      let run := (x :: rest).takeWhile Char.isDigit
      let rest1 := (x :: rest).dropWhile Char.isDigit
      match rest1 with
      | '-' :: tail =>
        match tail with
        | d :: _ =>
          if d.isDigit then
            let run2 := tail.takeWhile Char.isDigit
            let rest2 := tail.dropWhile Char.isDigit
            run ++ (' ' :: 't' :: 'o' :: ' ' :: []) ++ run2 ++ scoreSubAux n rest2
          else
            run ++ '-' :: scoreSubAux n tail
        | [] => run ++ ['-']
      | _ => run ++ scoreSubAux n rest1
    else
      x :: scoreSubAux n rest

def scoreSub (cs : List Char) : List Char :=
  scoreSubAux cs.length cs

/-- The accidental replacement key in the source's `replacements` table
(utils/text_processing.py:159-160): those two lines tokenize as one
Python triple-quoted string, so the parsed dict maps this multi-line junk
key (comment text included) to a single ASCII apostrophe — the intended
smart-apostrophe entries do not exist. -/
def smart_apostrophe_junk_key : String :=
  ": \"'\",  # Replace smart apostrophes\n        "

/-- Embedding of `clean_punctuation` (utils/text_processing.py:143-184):
the literal replacements of the parsed `replacements` dict in its actual
insertion order — despite the comments, lines 157-158 hold an ASCII-quote
identity entry (kept for fidelity, and the duplicate key collapses to one
dict entry) and lines 159-160 produce the junk key above, so no smart
quote or smart apostrophe is ever converted; only the inverted marks,
en/em dashes and the unicode ellipsis are genuinely replaced.  Then the
double-dot spacing rule (a run of exactly two dots becomes " .. "), the
digit-hyphen-digit score rule, collapsing of repeated `!` and `?`,
collapsing of four or more dots to an ellipsis, and finally whitespace
collapsing plus strip (`re.sub(r'\s+', ' ', text).strip()`, realised as
join-of-split). -/
def clean_punctuation (text : String) : String :=
  let t := pyReplace text "¡" ""
  let t := pyReplace t "¿" ""
  let t := pyReplace t "\"" "\""
  let t := pyReplace t smart_apostrophe_junk_key "'"
  let t := pyReplace t "–" "-"
  let t := pyReplace t "—" "-"
  let t := pyReplace t "…" "..."
  let cs := t.toList
  let cs := mapRuns '.' (fun k => if k = 2 then (' ' :: '.' :: '.' :: ' ' :: []) else List.replicate k '.') cs
  let cs := scoreSub cs
  let cs := mapRuns '!' (fun k => if 2 ≤ k then ['!'] else List.replicate k '!') cs
  let cs := mapRuns '?' (fun k => if 2 ≤ k then ['?'] else List.replicate k '?') cs
  let cs := mapRuns '.' (fun k => if 4 ≤ k then ('.' :: '.' :: '.' :: []) else List.replicate k '.') cs
  String.intercalate " " (py_split_ws (String.mk cs))

/-- Embedding of `preprocess_text_for_tts` (utils/text_processing.py:187-211)
specialised to `convert_numbers=False`, which is how the server pipeline
calls it (simple_vits_server.py:798): replace hyphens by spaces, expand the
abbreviation table, then clean punctuation. -/
def preprocess_text_for_tts (text : String) : String :=
  clean_punctuation (handle_abbreviations (pyReplace text "-" " "))

/-! ## Hallucination heuristic (simple_vits_server.py:617-656 and
stream_audio_client.py:303-333, identical logic) -/

/-- Largest occurrence count of any word of `ws`, counting inside `full`
(the Python code builds `word_counts` and takes `max(word_counts.values())`). -/
def maxWordCountIn (full : List String) (ws : List String) : Nat :=
  ws.foldr (fun w acc => max (full.count w) acc) 0

def max_word_count (ws : List String) : Nat :=
  maxWordCountIn ws ws

/-- Embedding of `_is_likely_hallucination(text, original_duration)`:
fewer than 10 lowercased whitespace-separated words is never a
hallucination; otherwise flag when the most frequent word exceeds 30% of
the words, or words per second exceed 15, or characters per second exceed
100.  Thresholds are exact rationals standing for the Python float
literals. -/
def is_likely_hallucination (text : String) (original_duration : ℚ) : Bool :=
  let words := py_split_ws (py_lower text)
  if words.length < 10 then false
  else if ((words.length : ℚ)) * (3 / 10) < ((max_word_count words : ℚ)) then true
  else if (15 : ℚ) < ((words.length : ℚ)) / original_duration then true
  else if (100 : ℚ) < ((text.length : ℚ)) / original_duration then true
  else false

/-! ## Duration matching (simple_vits_server.py:583-597 and
stream_audio_client.py:628-632) -/

/-- Speed factor computed by the server's `_process_fragment`
(simple_vits_server.py:583-597): outside the 0.1 s tolerance the ratio
`tts_duration / original_duration` is clamped to `[1, 2]`
(`max(1.0, min(2.0, required_speed))`); inside the tolerance no adjustment
is made, represented here as factor 1. -/
def server_required_speed (tts_duration original_duration : ℚ) : ℚ :=
  if 1 / 10 < |tts_duration - original_duration| then
    max 1 (min 2 (tts_duration / original_duration))
  else 1

/-- Speed factor computed by the client's `_process_fragment`
(stream_audio_client.py:628-632): the clamp is always applied, with no
tolerance window around the original duration. -/
def client_required_speed (baseline_duration original_duration : ℚ) : ℚ :=
  max 1 (min 2 (baseline_duration / original_duration))

/-! ## Audio mixing (simple_vits_server.py:723-771) -/

/-- Embedding of `_mix_tts_with_background(tts_audio, original_audio)`:
both inputs are first truncated to the shorter length; with mixing enabled
the output is `tts * 0.7 + original * 0.3` elementwise; with `--no-mixing`
the (already truncated) TTS audio is returned.  In the source the
`no_mixing` branch also trips a `NameError` in a logging statement whose
handler returns the same truncated `tts_audio`, so the returned value is
the one modelled here. -/
def mix_tts_with_background (tts_audio original_audio : List ℚ) (no_mixing : Bool) : List ℚ :=
  let min_length := min tts_audio.length original_audio.length
  let tts := tts_audio.take min_length
  let orig := original_audio.take min_length
  if no_mixing then tts
  else List.zipWith (fun a b => a * (7 / 10) + b * (3 / 10)) tts orig

/-! ## Transcript segments (stream_audio_client.py:525-550) -/

/-- One Whisper segment `(start_offset, end_offset, text, confidence)`;
`stop` stands for the source's `end`, a Lean keyword. -/
structure TranscriptSegment where
  start : ℚ
  stop : ℚ
  text : String
  confidence : ℚ
  deriving DecidableEq, Repr

/-- Embedding of the client's segment filter loop
(stream_audio_client.py:527-541): keep a segment only when it starts
before the declared fragment duration, truncating its end to that
duration, and only when the truncated end still lies after the start. -/
def filter_segments (expected_duration : ℚ) (segs : List TranscriptSegment) : List TranscriptSegment :=
  segs.filterMap (fun s =>
    if s.start < expected_duration then
      if s.start < min s.stop expected_duration then
        some { s with stop := min s.stop expected_duration }
      else none
    else none)

/-- Space-join of surviving segment texts in list (time) order
(stream_audio_client.py:549). -/
def combined_filtered_text (expected_duration : ℚ) (segs : List TranscriptSegment) : String :=
  String.intercalate " " ((filter_segments expected_duration segs).map (fun s => s.text))

/-! ## Server fragment pipeline (simple_vits_server.py:392-615) -/

/-- Decoded working audio as produced by `load_audio_file`:
mono samples plus the authoritative sample rate. -/
structure LoadedAudio where
  samples : List ℚ
  rate : ℕ
  deriving DecidableEq, Repr

/-- The fragment duration heuristic (simple_vits_server.py:412-414):
a declared duration above 100 is treated as milliseconds. -/
def effective_duration (declared : ℚ) : ℚ :=
  if 100 < declared then declared / 1000 else declared

/-- Oracles for the external collaborators of `_process_fragment`, plus the
fragment's declared duration and the mixing flag.  An `Except.error` value
models the collaborator raising an exception; `synthesize` returning
`Except.ok none` models TTS completing without a usable wav file
(`not wav_path or not wav_path.exists()`).  The pure text cleanup between
transcription and translation (speaker-prefix stripping and translation
preprocessing) is absorbed into the `translate` oracle, which receives the
space-joined transcript. -/
structure PipelineEnv where
  decode : Except String LoadedAudio
  transcribe : List ℚ → Except String (List TranscriptSegment)
  translate : String → Except String String
  synthesize : String → Except String (Option (List ℚ))
  stretch : List ℚ → ℚ → List ℚ
  encode : List ℚ → ℕ → List ℕ
  declared_duration : ℚ
  no_mixing : Bool

/-- Space-joined transcript as built by the server
(`" ".join([seg[2] for seg in segments])`, simple_vits_server.py:470);
the server applies no duration filtering to the segments. -/
def combined_text (segs : List TranscriptSegment) : String :=
  String.intercalate " " (segs.map (fun s => s.text))

/-- Embedding of the server's `_process_fragment` control flow
(simple_vits_server.py:392-615).  `none` is the Python `return None`: the
worker then emits nothing and counts a failure.  Any exception raised by a
stage lands in the outer handler (lines 613-615), which returns `None`.
The fallback paths returning the re-encoded original decoded audio are:
no transcript segments, hallucination detected, and synthesis finishing
without a usable file.  On the success path the synthesized audio is
duration-matched against the decoded audio (speed factor per
`server_required_speed`, applied only when above 1), mixed with the
original, and re-encoded at the decoded sample rate. -/
def process_fragment (env : PipelineEnv) : Option (List ℕ) :=
  match env.decode with
  | .error _ => none
  | .ok la =>
    match env.transcribe la.samples with
    | .error _ => none
    | .ok segments =>
      if segments.isEmpty then some (env.encode la.samples la.rate)
      else
        let combined := combined_text segments
        if is_likely_hallucination combined (effective_duration env.declared_duration) then
          some (env.encode la.samples la.rate)
        else
          match env.translate combined with
          | .error _ => none
          | .ok translated =>
            match env.synthesize translated with
            | .error _ => none
            | .ok none => some (env.encode la.samples la.rate)
            | .ok (some synthesized) =>
              let original_duration := (la.samples.length : ℚ) / (la.rate : ℚ)
              let tts_duration := (synthesized.length : ℚ) / (la.rate : ℚ)
              let adjusted :=
                if 1 / 10 < |tts_duration - original_duration| then
                  let s := server_required_speed tts_duration original_duration
                  if 1 < s then env.stretch synthesized s else synthesized
                else synthesized
              let mixed := mix_tts_with_background adjusted la.samples env.no_mixing
              some (env.encode mixed la.rate)

/-! ## Sample-rate flow (utils/audio_streaming.py:33-67 and
simple_vits_server.py:424-440, 853-897) -/

/-- The ffmpeg resampling step inside `load_audio_file` is an external
collaborator (out of scope for the spec); only the rate bookkeeping is
load-bearing here, so the samples pass through unmodified. -/
def ffmpeg_resample (samples : List ℚ) (_targetRate : ℕ) : List ℚ :=
  samples

/-- Embedding of `load_audio_file(file_path, target_sample_rate=16000)`
(utils/audio_streaming.py:33-67): the audio is resampled to
`target_sample_rate` and that rate is returned as the authoritative rate. -/
def load_audio_file (input : List ℚ) (target_sample_rate : ℕ := 16000) : LoadedAudio :=
  { samples := ffmpeg_resample input target_sample_rate, rate := target_sample_rate }

/-- The sample rate of the working audio in the server pipeline: the server
first has ffmpeg write a wav at the fragment's declared rate, then calls
`load_audio_file(temp_wav_path)` with no target-rate argument
(simple_vits_server.py:435), so the result rate is the default. -/
def server_actual_sample_rate (declared_rate : ℕ) (wav : List ℚ) : ℕ :=
  (load_audio_file (ffmpeg_resample wav declared_rate)).rate

/-- The rate at which `_encode_audio` re-encodes the output: the server
passes `actual_sample_rate` through (simple_vits_server.py:467, 476, 611,
853-886). -/
def server_encode_rate (declared_rate : ℕ) (wav : List ℚ) : ℕ :=
  server_actual_sample_rate declared_rate wav

/-! ## Sequential scheduler (simple_vits_server.py:181-213, 335-390) -/

/-- State of the FIFO queue plus the single worker.  `pending` is the
processing queue in arrival order, `inFlight` the fragment the worker is
currently processing (the worker is a single thread that dequeues,
processes synchronously and emits before the next dequeue), `emitted` the
`fragment:processed` events in emission order, and `arrived` the ghost
history of all enqueued fragments in arrival order. -/
structure SchedulerState (α : Type) where
  pending : List α
  inFlight : Option α
  emitted : List α
  arrived : List α

/-- Transitions of the scheduler.  `enqueue` is the `fragment:data` handler
putting a tuple on `processing_queue` (any connection, any time);
`dequeue` is the worker's blocking `get`, only possible when the worker is
idle; `finish_emit` is a processing round that ends in a successful
`fragment:processed` emission; `finish_drop` is a round whose
`_process_fragment` returned `None` (or whose emit raised), which advances
the queue without emitting. -/
inductive SchedStep {α : Type} : SchedulerState α → SchedulerState α → Prop
  | enqueue (f : α) (s t : SchedulerState α)
      (hp : t.pending = s.pending ++ [f]) (hi : t.inFlight = s.inFlight)
      (he : t.emitted = s.emitted) (ha : t.arrived = s.arrived ++ [f]) : SchedStep s t
  | dequeue (f : α) (s t : SchedulerState α)
      (hp : s.pending = f :: t.pending) (hidle : s.inFlight = none)
      (hi : t.inFlight = some f) (he : t.emitted = s.emitted)
      (ha : t.arrived = s.arrived) : SchedStep s t
  | finish_emit (f : α) (s t : SchedulerState α)
      (hbusy : s.inFlight = some f) (hi : t.inFlight = none)
      (hp : t.pending = s.pending) (he : t.emitted = s.emitted ++ [f])
      (ha : t.arrived = s.arrived) : SchedStep s t
  | finish_drop (f : α) (s t : SchedulerState α)
      (hbusy : s.inFlight = some f) (hi : t.inFlight = none)
      (hp : t.pending = s.pending) (he : t.emitted = s.emitted)
      (ha : t.arrived = s.arrived) : SchedStep s t

/-- The server starts with an empty queue, an idle worker and no history. -/
def schedInit (α : Type) : SchedulerState α :=
  { pending := [], inFlight := none, emitted := [], arrived := [] }

/-- States reachable from the initial state by scheduler transitions. -/
def SchedReachable {α : Type} (s : SchedulerState α) : Prop :=
  Relation.ReflTransGen SchedStep (schedInit α) s

/-! ## Helper lemmas -/

theorem maxWordCountIn_lt_iff (full : List String) (ws : List String) (t : ℚ) (ht : 0 ≤ t) :
    t < ((maxWordCountIn full ws : ℕ) : ℚ) ↔ ∃ w ∈ ws, t < ((full.count w : ℕ) : ℚ) := by
  induction ws with
  | nil =>
    simp only [maxWordCountIn, List.foldr_nil, Nat.cast_zero, List.not_mem_nil]
    constructor
    · intro h
      exact absurd h (not_lt.mpr ht)
    · rintro ⟨w, hw, -⟩
      exact absurd hw (by simp)
  | cons w ws ih =>
    simp only [maxWordCountIn, List.foldr_cons] at *
    rw [Nat.cast_max, lt_max_iff, ih]
    constructor
    · rintro (h | ⟨v, hv, hvc⟩)
      · exact ⟨w, List.mem_cons_self w ws, h⟩
      · exact ⟨v, List.mem_cons_of_mem w hv, hvc⟩
    · rintro ⟨v, hv, hvc⟩
      rcases List.mem_cons.mp hv with rfl | hv
      · exact Or.inl hvc
      · exact Or.inr ⟨v, hv, hvc⟩

theorem max_word_count_lt_iff (ws : List String) (t : ℚ) (ht : 0 ≤ t) :
    t < ((max_word_count ws : ℕ) : ℚ) ↔ ∃ w ∈ ws, t < ((ws.count w : ℕ) : ℚ) :=
  maxWordCountIn_lt_iff ws ws t ht

/-! ## Claim theorems -/

/-- C4: `isLikelyHallucination(text, duration)` returns false for every text
with fewer than 10 whitespace-separated words regardless of density; for
texts with at least 10 words it returns true exactly when some (hence the
most frequent) lowercased word accounts for more than 30% of the words, or
words per second exceed 15, or characters per second exceed 100, and
returns false otherwise. -/
theorem c4_hallucination_thresholds (text : String) (dur : ℚ) (hdur : 0 < dur) :
    ((py_split_ws (py_lower text)).length < 10 → is_likely_hallucination text dur = false) ∧
    (10 ≤ (py_split_ws (py_lower text)).length →
      (is_likely_hallucination text dur = true ↔
        (∃ w ∈ py_split_ws (py_lower text),
            ((py_split_ws (py_lower text)).length : ℚ) * (3 / 10)
              < (((py_split_ws (py_lower text)).count w : ℕ) : ℚ)) ∨
        (15 : ℚ) < ((py_split_ws (py_lower text)).length : ℚ) / dur ∨
        (100 : ℚ) < ((text.length : ℚ)) / dur)) := by
  constructor
  · intro h
    simp only [is_likely_hallucination]
    rw [if_pos h]
  · intro h
    have hnot : ¬ (py_split_ws (py_lower text)).length < 10 := by omega
    have ht : (0 : ℚ) ≤ ((py_split_ws (py_lower text)).length : ℚ) * (3 / 10) := by positivity
    simp only [is_likely_hallucination]
    rw [if_neg hnot]
    rw [← max_word_count_lt_iff (py_split_ws (py_lower text)) _ ht]
    by_cases h1 : ((py_split_ws (py_lower text)).length : ℚ) * (3 / 10)
        < ((max_word_count (py_split_ws (py_lower text)) : ℕ) : ℚ)
    · rw [if_pos h1]
      simp only [true_iff]
      exact Or.inl h1
    · rw [if_neg h1]
      by_cases h2 : (15 : ℚ) < ((py_split_ws (py_lower text)).length : ℚ) / dur
      · rw [if_pos h2]
        simp only [true_iff]
        exact Or.inr (Or.inl h2)
      · rw [if_neg h2]
        by_cases h3 : (100 : ℚ) < ((text.length : ℚ)) / dur
        · rw [if_pos h3]
          simp only [true_iff]
          exact Or.inr (Or.inr h3)
        · rw [if_neg h3]
          simp only [Bool.false_eq_true, false_iff]
          rintro (hc | hc | hc)
          · exact h1 hc
          · exact h2 hc
          · exact h3 hc

/-- Witness for C4 at a concrete repetitive transcript: ten copies of "go"
over two seconds trip the repetition branch. -/
theorem c4_hallucination_thresholds_witness :
    is_likely_hallucination "go go go go go go go go go go" 2 = true := by
  have hlen : (py_split_ws (py_lower "go go go go go go go go go go")).length = 10 := by decide
  have hcount : (py_split_ws (py_lower "go go go go go go go go go go")).count "go" = 10 := by
    decide
  refine ((c4_hallucination_thresholds "go go go go go go go go go go" 2 (by norm_num)).2
      (by decide)).mpr (Or.inl ⟨"go", by decide, ?_⟩)
  rw [hlen, hcount]
  norm_num

/-- C3 counterexample: the client's duration matcher
(stream_audio_client.py:628-632) has no 0.1 s tolerance window; with a
synthesized duration of 1.05 s against an original of 1 s the difference is
within 0.1 s, yet the computed factor is 1.05, not 1. -/
theorem c3_counterexample :
    |((21 : ℚ) / 20) - 1| ≤ 1 / 10 ∧ client_required_speed ((21 : ℚ) / 20) 1 ≠ 1 := by
  constructor
  · rw [abs_of_nonneg (by norm_num)]
    norm_num
  · have h2 : min (2 : ℚ) (21 / 20 / 1) = 21 / 20 := by
      rw [min_eq_right] <;> norm_num
    have h1 : max (1 : ℚ) (21 / 20) = 21 / 20 := by
      rw [max_eq_right] <;> norm_num
    rw [client_required_speed, h2, h1]
    norm_num

/-- C3 amended: for every synthesized duration `Td` and original duration
`To > 0`, both computed speed factors lie in `[1, 2]`.  The server's factor
is 1 whenever `|Td - To| ≤ 0.1` and otherwise equals `Td/To` clamped to
`[1, 2]`; the client's factor is always the clamp, with no tolerance
window, so audio is only ever sped up in either variant. -/
theorem c3_duration_match_bounds (td torig : ℚ) (hto : 0 < torig) :
    (1 ≤ server_required_speed td torig ∧ server_required_speed td torig ≤ 2) ∧
    (|td - torig| ≤ 1 / 10 → server_required_speed td torig = 1) ∧
    (1 / 10 < |td - torig| → server_required_speed td torig = max 1 (min 2 (td / torig))) ∧
    (1 ≤ client_required_speed td torig ∧ client_required_speed td torig ≤ 2) := by
  have hbounds : 1 ≤ max 1 (min 2 (td / torig)) ∧ max 1 (min 2 (td / torig)) ≤ 2 :=
    ⟨le_max_left 1 _, max_le (by norm_num) (min_le_left 2 _)⟩
  refine ⟨?_, ?_, ?_, hbounds⟩
  · rw [server_required_speed]
    by_cases h : 1 / 10 < |td - torig|
    · rw [if_pos h]
      exact hbounds
    · rw [if_neg h]
      norm_num
  · intro h
    rw [server_required_speed, if_neg (not_lt.mpr h)]
  · intro h
    rw [server_required_speed, if_pos h]

/-- Witness for C3 amended at `Td = 3`, `To = 1`. -/
theorem c3_duration_match_bounds_witness :
    1 ≤ server_required_speed 3 1 ∧ server_required_speed 3 1 ≤ 2 :=
  (c3_duration_match_bounds 3 1 (by norm_num)).1

/-- C5: in the default mixing path the output has length
`min (len speech) (len background)`, every sample of the common prefix is
`0.7 * speech + 0.3 * background` with no normalisation or clipping
handling, and excess background is discarded (the output is exactly the
elementwise blend of the common prefix). -/
theorem c5_mixer_blend (tts orig : List ℚ) :
    (mix_tts_with_background tts orig false).length = min tts.length orig.length ∧
    mix_tts_with_background tts orig false
      = List.zipWith (fun a b => a * (7 / 10) + b * (3 / 10)) tts orig ∧
    (∀ (i : ℕ) (h1 : i < tts.length) (h2 : i < orig.length),
      (mix_tts_with_background tts orig false)[i]?
        = some (tts[i] * (7 / 10) + orig[i] * (3 / 10))) := by
  have hz : mix_tts_with_background tts orig false
      = List.zipWith (fun a b => a * (7 / 10) + b * (3 / 10)) tts orig := by
    rw [mix_tts_with_background]
    simp only [Bool.false_eq_true, if_false]
    rw [← List.take_zipWith]
    rw [← List.length_zipWith (fun a b => a * (7 / 10) + b * (3 / 10)) tts orig]
    exact List.take_length _
  refine ⟨?_, hz, ?_⟩
  · rw [hz]
    exact List.length_zipWith _ tts orig
  · intro i h1 h2
    have hlen : i < (List.zipWith (fun a b : ℚ => a * (7 / 10) + b * (3 / 10)) tts orig).length := by
      rw [List.length_zipWith]
      exact lt_min h1 h2
    rw [hz, List.getElem?_eq_getElem hlen, List.getElem_zipWith]

/-- Witness for C5 at `speech = [1, 2]`, `background = [4, 5, 6]`, sample 0. -/
theorem c5_mixer_blend_witness :
    (mix_tts_with_background [1, 2] [4, 5, 6] false)[0]?
      = some ((1 : ℚ) * (7 / 10) + (4 : ℚ) * (3 / 10)) :=
  (c5_mixer_blend [1, 2] [4, 5, 6]).2.2 0 (by norm_num) (by norm_num)

/-- C6 counterexample: in TTS-only mode the source truncates the speech to
the common length before the flag check, so with speech `[1, 1]` and a
shorter background `[5]` the output is `[1]`, not the unchanged speech. -/
theorem c6_counterexample :
    mix_tts_with_background [1, 1] [5] true = [1] ∧ ([1] : List ℚ) ≠ [1, 1] := by
  constructor
  · rfl
  · simp

/-- C6 amended: in TTS-only mode (`--no-mixing`) the output is the speech
waveform truncated to `min (len speech) (len background)`; it equals the
speech exactly whenever the speech is no longer than the background. -/
theorem c6_tts_only_mode (tts orig : List ℚ) :
    mix_tts_with_background tts orig true = tts.take (min tts.length orig.length) ∧
    (tts.length ≤ orig.length → mix_tts_with_background tts orig true = tts) := by
  constructor
  · simp [mix_tts_with_background]
  · intro h
    simp only [mix_tts_with_background, if_true]
    rw [min_eq_left h]
    exact List.take_length tts

/-- Witness for C6 amended at speech `[1]`, background `[2, 3]`. -/
theorem c6_tts_only_mode_witness :
    mix_tts_with_background [1] [2, 3] true = [1] :=
  (c6_tts_only_mode [1] [2, 3]).2 (by norm_num)

/-- C8: for well-formed Whisper segments (start strictly before end), the
client's filter drops exactly the segments starting at or beyond the
declared duration, truncates the end of each survivor to at most the
declared duration, and the surviving texts are space-joined in list (time)
order. -/
theorem c8_segment_filter (d : ℚ) (segs : List TranscriptSegment)
    (h : ∀ s ∈ segs, s.start < s.stop) :
    filter_segments d segs
      = (segs.filter (fun s => decide (s.start < d))).map
          (fun s => { s with stop := min s.stop d }) ∧
    combined_filtered_text d segs
      = String.intercalate " "
          (((segs.filter (fun s => decide (s.start < d))).map
              (fun s => { s with stop := min s.stop d })).map (fun s => s.text)) := by
  have hmain : filter_segments d segs
      = (segs.filter (fun s => decide (s.start < d))).map
          (fun s => { s with stop := min s.stop d }) := by
    induction segs with
    | nil => rfl
    | cons s rest ih =>
      have hs : s.start < s.stop := h s (List.mem_cons_self s rest)
      have hrest : ∀ x ∈ rest, x.start < x.stop := fun x hx => h x (List.mem_cons_of_mem s hx)
      have ih2 := ih hrest
      by_cases hd : s.start < d
      · have htr : s.start < min s.stop d := lt_min hs hd
        have hkeep : filter_segments d (s :: rest)
            = { s with stop := min s.stop d } :: filter_segments d rest := by
          rw [filter_segments, filter_segments, List.filterMap_cons, if_pos hd, if_pos htr]
        rw [hkeep, ih2]
        simp [List.filter_cons, hd]
      · have hdrop : filter_segments d (s :: rest) = filter_segments d rest := by
          rw [filter_segments, filter_segments, List.filterMap_cons, if_neg hd]
        rw [hdrop, ih2]
        simp [List.filter_cons, hd]
  exact ⟨hmain, by rw [combined_filtered_text, hmain]⟩

/-- Witness for C8 at duration 4 with one contained and one spanning
segment. -/
theorem c8_segment_filter_witness :
    filter_segments 4
        [⟨0, 2, "a", 1⟩, ⟨3, 5, "b", 1⟩]
      = [⟨0, 2, "a", 1⟩, ⟨3, 4, "b", 1⟩] := by
  have hwf : ∀ s ∈ ([⟨0, 2, "a", 1⟩, ⟨3, 5, "b", 1⟩] : List TranscriptSegment),
      s.start < s.stop := by
    intro s hs
    rcases List.mem_cons.mp hs with rfl | hs
    · norm_num
    · rcases List.mem_cons.mp hs with rfl | hs
      · norm_num
      · simp at hs
  rw [(c8_segment_filter 4 [⟨0, 2, "a", 1⟩, ⟨3, 5, "b", 1⟩] hwf).1]
  norm_num [List.filter_cons, min_def]

/-- C10: the server's working audio always carries the 16000 Hz default
target rate of `load_audio_file`, whatever the fragment's declared sample
rate, and the output is re-encoded at that same 16000 Hz rate. -/
theorem c10_sample_rate_flow (declared_rate : ℕ) (wav : List ℚ) :
    server_actual_sample_rate declared_rate wav = 16000 ∧
    server_encode_rate declared_rate wav = 16000 :=
  ⟨rfl, rfl⟩

/-- Concrete pipeline environment whose transcription yields no segments:
translation and synthesis are arbitrary (erroring) oracles, showing the
short-circuit ignores them. -/
def demoEnvNoSpeech : PipelineEnv where
  decode := .ok ⟨[1], 16000⟩
  transcribe := fun _ => .ok []
  translate := fun _ => .error "unused"
  synthesize := fun _ => .error "unused"
  stretch := fun a _ => a
  encode := fun a r => [a.length, r]
  declared_duration := 2
  no_mixing := false

/-- Concrete pipeline environment with a decodable fragment, a plausible
transcript, and a translation stage that raises. -/
def demoEnvMTDown : PipelineEnv where
  decode := .ok ⟨[1], 16000⟩
  transcribe := fun _ => .ok [⟨0, 1, "hello there", 1⟩]
  translate := fun _ => .error "translator raised"
  synthesize := fun _ => .ok none
  stretch := fun a _ => a
  encode := fun a r => [a.length, r]
  declared_duration := 2
  no_mixing := false

/-- Concrete pipeline environment where translation succeeds but synthesis
completes without a usable wav file. -/
def demoEnvNoWav : PipelineEnv where
  decode := .ok ⟨[1], 16000⟩
  transcribe := fun _ => .ok [⟨0, 1, "hello there", 1⟩]
  translate := fun _ => .ok "hola"
  synthesize := fun _ => .ok none
  stretch := fun a _ => a
  encode := fun a r => [a.length, r]
  declared_duration := 2
  no_mixing := false

/-- C7: with a successful decode, an empty transcript or a transcript
flagged as hallucination short-circuits to the original decoded audio
re-encoded, for every choice of the translation/synthesis/stretch oracles
(so those stages are never consulted); with a failed decode the fragment
produces no output at all. -/
theorem c7_short_circuit (env : PipelineEnv) :
    (∀ e, env.decode = .error e → process_fragment env = none) ∧
    (∀ la, env.decode = .ok la →
      (env.transcribe la.samples = .ok [] →
        process_fragment env = some (env.encode la.samples la.rate)) ∧
      (∀ segs, env.transcribe la.samples = .ok segs →
        is_likely_hallucination (combined_text segs)
          (effective_duration env.declared_duration) = true →
        process_fragment env = some (env.encode la.samples la.rate))) := by
  refine ⟨?_, ?_⟩
  · intro e he
    simp [process_fragment, he]
  · intro la hla
    refine ⟨?_, ?_⟩
    · intro ht
      simp [process_fragment, hla, ht]
    · intro segs ht hh
      rcases segs with _ | ⟨s0, rest⟩
      · simp [process_fragment, hla, ht]
      · simp [process_fragment, hla, ht, hh]

/-- Witness for C7: the no-speech environment yields the re-encoded
original audio even though its translation and synthesis oracles raise. -/
theorem c7_short_circuit_witness :
    process_fragment demoEnvNoSpeech = some [1, 16000] :=
  ((c7_short_circuit demoEnvNoSpeech).2 ⟨[1], 16000⟩ rfl).1 rfl

/-- C2 counterexample: a fragment decodes, transcribes to a plausible
two-word text, and then the translation stage raises; the pipeline returns
`None` (the worker emits nothing), not the original audio re-encoded, so a
decodable fragment can produce no output. -/
theorem c2_counterexample :
    process_fragment demoEnvMTDown = none := rfl

/-- C2 amended: after a successful decode, an exception in transcription,
translation or synthesis makes `_process_fragment` return `None` through
its outer handler — the fragment then produces no output at all; the
original decoded audio re-encoded is delivered only on the non-exception
fallback of synthesis completing without a usable file (empty-transcript
and hallucination fallbacks are stated with C7). -/
theorem c2_stage_failure_policy (env : PipelineEnv) (la : LoadedAudio)
    (hd : env.decode = .ok la) :
    (∀ e, env.transcribe la.samples = .error e → process_fragment env = none) ∧
    (∀ segs, env.transcribe la.samples = .ok segs → segs ≠ [] →
      is_likely_hallucination (combined_text segs)
        (effective_duration env.declared_duration) = false →
      (∀ e, env.translate (combined_text segs) = .error e →
        process_fragment env = none) ∧
      (∀ t, env.translate (combined_text segs) = .ok t →
        (∀ e, env.synthesize t = .error e → process_fragment env = none) ∧
        (env.synthesize t = .ok none →
          process_fragment env = some (env.encode la.samples la.rate)))) := by
  refine ⟨?_, ?_⟩
  · intro e ht
    simp [process_fragment, hd, ht]
  · intro segs ht hne hh
    have hemp : segs.isEmpty = false := by
      rcases segs with _ | ⟨s0, rest⟩
      · exact absurd rfl hne
      · rfl
    refine ⟨?_, ?_⟩
    · intro e htr
      simp [process_fragment, hd, ht, hemp, hh, htr]
    · intro t htr
      refine ⟨?_, ?_⟩
      · intro e hsy
        simp [process_fragment, hd, ht, hemp, hh, htr, hsy]
      · intro hsy
        simp [process_fragment, hd, ht, hemp, hh, htr, hsy]

/-- Witness for C2 amended: translation succeeds, synthesis yields no
file, and the original decoded audio is re-encoded and delivered. -/
theorem c2_stage_failure_policy_witness :
    process_fragment demoEnvNoWav = some [1, 16000] :=
  (((c2_stage_failure_policy demoEnvNoWav ⟨[1], 16000⟩ rfl).2
        [⟨0, 1, "hello there", 1⟩] rfl (by simp) rfl).2 "hola" rfl).2 rfl

/-- Scheduler invariant: the emitted history, the fragment in flight and
the still-pending queue together form a subsequence of the arrival
history, in order. -/
theorem sched_invariant {α : Type} {s : SchedulerState α} (h : SchedReachable s) :
    (s.emitted ++ s.inFlight.toList ++ s.pending).Sublist s.arrived := by
  induction h with
  | refl => simp [schedInit]
  | tail hreach hstep ih =>
    rename_i b c
    cases hstep with
    | enqueue f s t hp hi he ha =>
      rw [hp, hi, he, ha, ← List.append_assoc]
      exact ih.append (List.Sublist.refl [f])
    | dequeue f s t hp hidle hi he ha =>
      rw [hi, he, ha]
      have ih2 := ih
      rw [hp, hidle] at ih2
      simpa using ih2
    | finish_emit f s t hbusy hi he hp ha =>
      rw [hi, he, hp, ha]
      have ih2 := ih
      rw [hbusy] at ih2
      simpa using ih2
    | finish_drop f s t hbusy hi he hp ha =>
      rw [hi, he, hp, ha]
      have ih2 := ih
      rw [hbusy] at ih2
      have hsub : (b.emitted ++ b.pending).Sublist (b.emitted ++ [f] ++ b.pending) := by
        rw [List.append_assoc]
        exact (List.Sublist.refl b.emitted).append
          ((List.nil_sublist [f]).append (List.Sublist.refl b.pending))
      simpa using hsub.trans (by simpa using ih2)

/-- C1: in every reachable scheduler state the `fragment:processed`
emission history is a subsequence of the arrival history — results are
dispatched in the same relative order the fragments were enqueued, across
all connections — and at most one fragment is in flight (the single worker
dequeues only when idle and finishes a fragment before the next dequeue). -/
theorem c1_fifo_order {α : Type} (s : SchedulerState α) (h : SchedReachable s) :
    s.emitted.Sublist s.arrived ∧ s.inFlight.toList.length ≤ 1 := by
  refine ⟨?_, ?_⟩
  · have inv := sched_invariant h
    have h1 : s.emitted.Sublist (s.emitted ++ s.inFlight.toList ++ s.pending) := by
      rw [List.append_assoc]
      exact List.sublist_append_left s.emitted _
    exact h1.trans inv
  · cases s.inFlight <;> simp

/-- Witness for C1: a concrete trace — enqueue fragments 1 and 2, dequeue
and fully process fragment 1, emit it — reaches a state whose emissions
`[1]` form an order-preserving subsequence of the arrivals `[1, 2]`. -/
theorem c1_fifo_order_witness :
    (SchedulerState.mk [2] (none : Option ℕ) [1] [1, 2]).emitted.Sublist
      (SchedulerState.mk [2] (none : Option ℕ) [1] [1, 2]).arrived := by
  have t1 : SchedStep (schedInit ℕ) ⟨[1], none, [], [1]⟩ :=
    SchedStep.enqueue 1 _ _ rfl rfl rfl rfl
  have t2 : SchedStep (⟨[1], none, [], [1]⟩ : SchedulerState ℕ) ⟨[1, 2], none, [], [1, 2]⟩ :=
    SchedStep.enqueue 2 _ _ rfl rfl rfl rfl
  have t3 : SchedStep (⟨[1, 2], none, [], [1, 2]⟩ : SchedulerState ℕ) ⟨[2], some 1, [], [1, 2]⟩ :=
    SchedStep.dequeue 1 _ _ rfl rfl rfl rfl rfl
  have t4 : SchedStep (⟨[2], some 1, [], [1, 2]⟩ : SchedulerState ℕ) ⟨[2], none, [1], [1, 2]⟩ :=
    SchedStep.finish_emit 1 _ _ rfl rfl rfl rfl rfl
  have hreach : SchedReachable (SchedulerState.mk [2] (none : Option ℕ) [1] [1, 2]) :=
    ((((Relation.ReflTransGen.refl).tail t1).tail t2).tail t3).tail t4
  exact (c1_fifo_order _ hreach).1

/-- C9 counterexample: `preprocess_text_for_tts` replaces every ASCII
hyphen by a space before `clean_punctuation` runs, so the score rule never
sees `15-12`; the output is `15 12`, not the claimed `15 to 12`. -/
theorem c9_counterexample :
    preprocess_text_for_tts "15-12" = "15 12" ∧ "15 12" ≠ "15 to 12" := by
  constructor
  · rfl
  · decide

/-- C9 amended, checked at one canonical input per listed transform:
hyphens become spaces, the abbreviation table is expanded, runs of `!` and
`?` collapse to a single character, whitespace is collapsed, ellipses are
preserved verbatim, an ASCII-hyphen score `15-12` is rendered `15 12`
(its hyphen was already replaced by a space), and the `to` reading of a
score survives only when the hyphen arises from dash normalisation, as in
the en-dash score `15–12`. -/
theorem c9_normalize_for_speech :
    preprocess_text_for_tts "TEN-YARD" = "TEN YARD" ∧
    preprocess_text_for_tts "NBA vs NFL" = "N B A versus N F L" ∧
    preprocess_text_for_tts "Goal!!!" = "Goal!" ∧
    preprocess_text_for_tts "What???" = "What?" ∧
    preprocess_text_for_tts "a   b" = "a b" ∧
    preprocess_text_for_tts "Wait... what" = "Wait... what" ∧
    preprocess_text_for_tts "15-12" = "15 12" ∧
    preprocess_text_for_tts "15–12" = "15 to 12" :=
  ⟨rfl, rfl, rfl, rfl, rfl, rfl, rfl, rfl⟩

end STS
